import Mathlib

/-!
Verification development for the orderbook-view repository: a shallow
embedding of its normalization layer (`parseOrderbookData` and the
surrounding WebSocket message/lifecycle handlers in the `useOrderbookData`
hook) and of its execution simulator (`calculateMarketImpact` in
`InteractiveOrderSimulationForm.tsx`), together with theorems settling the
stated properties.

Modelling conventions:
* JavaScript numbers are modelled as `ℚ` (the claims under study involve no
  rounding); numeric-as-string wire fields are modelled already coerced, so
  `Number.parseFloat` is the identity on them.
* A possibly-absent JSON field is an `Option`; reading `.map` off an absent
  field throws a `TypeError`, which `parseOrderbookData` catches and turns
  into `null` — embedded as the `none` branches of the matches.
* React `useState` state touched by a handler is passed explicitly.
-/

/-- Venue identifiers, from `src/app/types/orderbook.ts` (`type Venue`). -/
inductive Venue
  | OKX
  | Bybit
  | Deribit
deriving DecidableEq, Repr

/-- One side's price level, from `src/app/types/orderbook.ts`
(`interface OrderbookLevel`). The optional display-only `total` field
(filled in by the presentation layer, never by the normalizer) is omitted. -/
structure OrderbookLevel where
  price : ℚ
  quantity : ℚ
deriving DecidableEq, Repr

/-- The normalized snapshot, from `src/app/types/orderbook.ts`
(`interface OrderbookData`). -/
structure OrderbookData where
  bids : List OrderbookLevel
  asks : List OrderbookLevel
  timestamp : Int
  symbol : String
  venue : Venue
deriving DecidableEq, Repr

/-- OKX book payload: one element of the `data` array of an OKX frame
(`{bids, asks, ts, instId}`); `bids`/`asks` are `Option` because a frame may
lack them (heartbeats, acks, partial payloads). `ts` and `instId` are
modelled as always present since no claim concerns them. -/
structure OKXBook where
  bids : Option (List (ℚ × ℚ))
  asks : Option (List (ℚ × ℚ))
  ts : Int
  instId : String
deriving DecidableEq, Repr

/-- An OKX frame: `{data: [...]}` with `data` possibly absent. -/
structure OKXMsg where
  data : Option (List OKXBook)
deriving DecidableEq, Repr

/-- Bybit book payload `{b, a, s}` inside a Bybit frame's `data` field. -/
structure BybitData where
  b : Option (List (ℚ × ℚ))
  a : Option (List (ℚ × ℚ))
  s : String
deriving DecidableEq, Repr

/-- A Bybit frame: `{data: {...}, ts}` with `data` possibly absent. -/
structure BybitMsg where
  data : Option BybitData
  ts : Int
deriving DecidableEq, Repr

/-- Deribit book payload `{bids, asks, timestamp, instrument_name}`. -/
structure DeribitBook where
  bids : Option (List (ℚ × ℚ))
  asks : Option (List (ℚ × ℚ))
  timestamp : Int
  instrument_name : String
deriving DecidableEq, Repr

/-- The `params` object of a Deribit JSON-RPC frame, whose `data` field may
be absent. -/
structure DeribitParams where
  data : Option DeribitBook
deriving DecidableEq, Repr

/-- A Deribit frame: `{params: {...}}` with `params` possibly absent. -/
structure DeribitMsg where
  params : Option DeribitParams
deriving DecidableEq, Repr

/-- A raw venue message as received on the socket: one of the three venue
shapes, or a control frame carrying none of the recognized fields
(subscription ack, heartbeat, ...). -/
inductive RawMsg
  | okx : OKXMsg → RawMsg
  | bybit : BybitMsg → RawMsg
  | deribit : DeribitMsg → RawMsg
  | control : RawMsg
deriving DecidableEq, Repr

/-- `([price, quantity]) => ({price: ..., quantity: ...})` — the mapping
applied to each raw level in `parseOrderbookData` (with the numeric
coercion already applied per the modelling conventions). -/
def toLevel (pq : ℚ × ℚ) : OrderbookLevel :=
  { price := pq.1, quantity := pq.2 }

/-- `parseOrderbookData` from the `useOrderbookData` hook: per-venue switch
that maps each side's raw levels, truncates each side with `.slice(0, 15)`,
and returns `null` for frames that do not carry the expected book payload —
either through the explicit truthiness guards (`data.data && data.data[0]`,
`data.data`, `data.params && data.params.data`) or through the
`try`/`catch` around the body, which turns the `TypeError` raised by
mapping over a missing `bids`/`asks`/`b`/`a` field into `null`.
A frame of a shape other than the selected venue's also falls through to
`null` (in the source its guards read absent fields). No sorting is
performed anywhere in the function. -/
def parseOrderbookData : Venue → RawMsg → Option OrderbookData
  | Venue.OKX, RawMsg.okx m =>
    match m.data with
    | some (book :: _) =>
      match book.bids, book.asks with
      | some bs, some aks =>
        some { bids := (bs.map toLevel).take 15
               asks := (aks.map toLevel).take 15
               timestamp := book.ts
               symbol := book.instId
               venue := Venue.OKX }
      | _, _ => none
    | _ => none
  | Venue.Bybit, RawMsg.bybit m =>
    match m.data with
    | some d =>
      match d.b, d.a with
      | some bs, some aks =>
        some { bids := (bs.map toLevel).take 15
               asks := (aks.map toLevel).take 15
               timestamp := m.ts
               symbol := d.s
               venue := Venue.Bybit }
      | _, _ => none
    | none => none
  | Venue.Deribit, RawMsg.deribit m =>
    match m.params with
    | some p =>
      match p.data with
      | some book =>
        match book.bids, book.asks with
        | some bs, some aks =>
          some { bids := (bs.map toLevel).take 15
                 asks := (aks.map toLevel).take 15
                 timestamp := book.timestamp
                 symbol := book.instrument_name
                 venue := Venue.Deribit }
        | _, _ => none
      | none => none
    | none => none
  | _, _ => none

/-- The state of one `useOrderbookData` hook instance that the socket
handlers can touch: the stored snapshot (`orderbookData`), the connection
flag (`isConnected`), the error message (`error`), and the pending
reconnect timer with its delay in milliseconds (`reconnectTimeoutRef`,
`none` when no reconnect is scheduled). -/
structure ConnState where
  orderbookData : Option OrderbookData
  isConnected : Bool
  error : Option String
  reconnectTimer : Option Nat
deriving DecidableEq, Repr

/-- The `ws.onmessage` handler: parse the frame; store the snapshot only
when parsing yields one (`if (parsedData) setOrderbookData(parsedData)`);
otherwise leave all state untouched. Parse failures are caught and only
logged — `setError` is never called here. -/
def onMessage (venue : Venue) (msg : RawMsg) (st : ConnState) : ConnState :=
  match parseOrderbookData venue msg with
  | some parsedData => { st with orderbookData := some parsedData }
  | none => st

/-- Venue name as rendered into handler messages. -/
def venueName : Venue → String
  | Venue.OKX => "OKX"
  | Venue.Bybit => "Bybit"
  | Venue.Deribit => "Deribit"

/-- The `ws.onerror` handler: record a human-readable error and drop the
connected flag. It does not itself schedule anything; the transport always
follows an error with a close event, which does. -/
def onSocketError (venue : Venue) (st : ConnState) : ConnState :=
  { st with
    error := some ("WebSocket connection error for " ++ venueName venue)
    isConnected := false }

/-- The fixed auto-reconnect delay hard-coded in the `ws.onclose` handler
(`setTimeout(() => connect(), 5000)`), in milliseconds. -/
def reconnectDelayMs : Nat := 5000

/-- The `ws.onclose` handler: drop the connected flag and schedule
`connect()` (re-entering the connecting state) after the fixed delay. The
state carries no attempt counter, so the scheduled delay cannot depend on
how many failures preceded it. -/
def onSocketClose (st : ConnState) : ConnState :=
  { st with
    isConnected := false
    reconnectTimer := some reconnectDelayMs }

/-- Order side, from the form state `side: "buy" | "sell"`. -/
inductive OrderSide
  | buy
  | sell
deriving DecidableEq, Repr

/-- Order type, from the form state `orderType: "market" | "limit"`. -/
inductive OrderType
  | market
  | limit
deriving DecidableEq, Repr

/-- The simulator's result record, from `src/app/types/orderbook.ts`
(`interface MarketImpactMetrics`). -/
structure MarketImpactMetrics where
  estimatedFill : ℚ
  marketImpact : ℚ
  slippage : ℚ
  averagePrice : ℚ
  worstPrice : ℚ
deriving DecidableEq, Repr

/-- The mutable locals of `calculateMarketImpact`'s book-walking loop. -/
structure WalkState where
  remainingQuantity : ℚ
  totalCost : ℚ
  totalQuantityFilled : ℚ
  worstPrice : ℚ
deriving DecidableEq, Repr

/-- The `for (const level of levels)` loop of `calculateMarketImpact`:
stop when `remainingQuantity <= 0`, otherwise take
`min(remainingQuantity, level.quantity)` at the level's price and record
the level's price as the worst touched. -/
def walkLevels : WalkState → List OrderbookLevel → WalkState
  | st, [] => st
  | st, level :: rest =>
    if st.remainingQuantity ≤ 0 then st
    else
      let quantityAtLevel := min st.remainingQuantity level.quantity
      walkLevels
        { remainingQuantity := st.remainingQuantity - quantityAtLevel
          totalCost := st.totalCost + quantityAtLevel * level.price
          totalQuantityFilled := st.totalQuantityFilled + quantityAtLevel
          worstPrice := level.price } rest

/-- `side === "buy" ? orderbookData.asks : orderbookData.bids` — the
opposing side the simulator walks. -/
def sideLevels (side : OrderSide) (ob : OrderbookData) : List OrderbookLevel :=
  match side with
  | OrderSide.buy => ob.asks
  | OrderSide.sell => ob.bids

/-- `levels.reduce((sum, level) => sum + level.quantity, 0)` — total
quantity available on a side. -/
def sumQuantities (levels : List OrderbookLevel) : ℚ :=
  levels.foldl (fun s level => s + level.quantity) 0

/-- `levels[0]?.price || 0` — the best (first) price of a side, or 0 when
the side is empty. -/
def firstPrice : List OrderbookLevel → ℚ
  | [] => 0
  | level :: _ => level.price

/-- `calculateMarketImpact` from `InteractiveOrderSimulationForm.tsx`. The
closure captures the component state `orderbookData`, `orderType`, `side`,
`price` and `quantity`; its body reads only `orderbookData`, `side` and
`quantity` — `orderType` and `price` (the limit price) are captured but
never read, which is why they appear as (unused) arguments here. `quantity`
and `price` are text fields, modelled as `none` when blank (falsy) and as
their parsed numeric value otherwise; `orderbookData` is `none` before the
first snapshot. Blank quantity or missing book short-circuits to the
all-zero metrics. -/
def calculateMarketImpact (orderbookData : Option OrderbookData)
    (orderType : OrderType) (side : OrderSide)
    (price : Option ℚ) (quantity : Option ℚ) : MarketImpactMetrics :=
  match orderbookData, quantity with
  | some ob, some orderQuantity =>
    let levels := sideLevels side ob
    let st := walkLevels
      { remainingQuantity := orderQuantity
        totalCost := 0
        totalQuantityFilled := 0
        worstPrice := 0 } levels
    let estimatedFill := st.totalQuantityFilled / orderQuantity * 100
    let averagePrice :=
      if 0 < st.totalQuantityFilled then st.totalCost / st.totalQuantityFilled else 0
    let bestPrice := firstPrice levels
    let slippage :=
      if 0 < bestPrice then |(averagePrice - bestPrice) / bestPrice| * 100 else 0
    let marketImpact :=
      if 0 < levels.length then st.totalQuantityFilled / sumQuantities levels * 100
      else 0
    { estimatedFill := estimatedFill
      marketImpact := marketImpact
      slippage := slippage
      averagePrice := averagePrice
      worstPrice := st.worstPrice }
  | _, _ =>
    { estimatedFill := 0, marketImpact := 0, slippage := 0
      averagePrice := 0, worstPrice := 0 }

/-- Division that records division by zero: `none` exactly when the
denominator is 0 (where JavaScript float division yields `NaN` or
`±Infinity` instead of a real quotient), `some (a / b)` otherwise. -/
def qdiv? (a b : ℚ) : Option ℚ :=
  if b = 0 then none else some (a / b)

/-- `calculateMarketImpact` with every division routed through `qdiv?`:
same structure as the source line by line, but returning `none` when the
source would divide by zero (producing `NaN`/`Infinity` in JavaScript
float semantics). Used to settle the division-by-zero claims, which the
total division of `ℚ` (where `x / 0 = 0`) cannot express. -/
def calculateMarketImpactChecked (orderbookData : Option OrderbookData)
    (orderType : OrderType) (side : OrderSide)
    (price : Option ℚ) (quantity : Option ℚ) : Option MarketImpactMetrics :=
  match orderbookData, quantity with
  | some ob, some orderQuantity => do
    let levels := sideLevels side ob
    let st := walkLevels
      { remainingQuantity := orderQuantity
        totalCost := 0
        totalQuantityFilled := 0
        worstPrice := 0 } levels
    let f0 ← qdiv? st.totalQuantityFilled orderQuantity
    let estimatedFill := f0 * 100
    let averagePrice ←
      if 0 < st.totalQuantityFilled then qdiv? st.totalCost st.totalQuantityFilled
      else pure 0
    let bestPrice := firstPrice levels
    let slippage ←
      if 0 < bestPrice then
        (qdiv? (averagePrice - bestPrice) bestPrice).map (fun x => |x| * 100)
      else pure 0
    let marketImpact ←
      if 0 < levels.length then
        (qdiv? st.totalQuantityFilled (sumQuantities levels)).map (fun x => x * 100)
      else pure 0
    pure { estimatedFill := estimatedFill
           marketImpact := marketImpact
           slippage := slippage
           averagePrice := averagePrice
           worstPrice := st.worstPrice }
  | _, _ =>
    pure { estimatedFill := 0, marketImpact := 0, slippage := 0
           averagePrice := 0, worstPrice := 0 }

/-- The sort invariant claimed for bids: each price is at least the next
one (`bids[i].price >= bids[i+1].price` for all valid `i`). -/
def bidsSortedDesc (l : List OrderbookLevel) : Prop :=
  l.Chain' (fun a b => b.price ≤ a.price)

/-- The sort invariant claimed for asks: each price is at most the next
one (`asks[i].price <= asks[i+1].price` for all valid `i`). -/
def asksSortedAsc (l : List OrderbookLevel) : Prop :=
  l.Chain' (fun a b => a.price ≤ b.price)

/-- The raw `(bids, asks)` pair of numeric levels that `parseOrderbookData`
reads for a given venue and frame, with the same guards the parser applies
(`none` exactly when the parser returns `null`). -/
def rawBook? : Venue → RawMsg → Option (List (ℚ × ℚ) × List (ℚ × ℚ))
  | Venue.OKX, RawMsg.okx m =>
    match m.data with
    | some (book :: _) =>
      match book.bids, book.asks with
      | some bs, some aks => some (bs, aks)
      | _, _ => none
    | _ => none
  | Venue.Bybit, RawMsg.bybit m =>
    match m.data with
    | some d =>
      match d.b, d.a with
      | some bs, some aks => some (bs, aks)
      | _, _ => none
    | none => none
  | Venue.Deribit, RawMsg.deribit m =>
    match m.params with
    | some p =>
      match p.data with
      | some book =>
        match book.bids, book.asks with
        | some bs, some aks => some (bs, aks)
        | _, _ => none
      | none => none
    | none => none
  | _, _ => none

/-- Whether the asks field read by the parser is missing from the frame:
the `asks` (OKX/Deribit) or `a` (Bybit) field is absent from the book
payload, or the path to the payload is itself absent (in which case no
asks are carried at all). Control frames carry no asks. -/
def asksFieldMissing : RawMsg → Bool
  | RawMsg.okx m =>
    match m.data with
    | some (book :: _) => book.asks.isNone
    | _ => true
  | RawMsg.bybit m =>
    match m.data with
    | some d => d.a.isNone
    | none => true
  | RawMsg.deribit m =>
    match m.params with
    | some p =>
      match p.data with
      | some book => book.asks.isNone
      | none => true
    | none => true
  | RawMsg.control => true

/-- Concrete snapshot used by several witnesses: the spec's partial-fill
example book, asks `[{100,1},{101,2}]`. -/
def obA : OrderbookData :=
  { bids := []
    asks := [{ price := 100, quantity := 1 }, { price := 101, quantity := 2 }]
    timestamp := 0
    symbol := "BTC-USDT"
    venue := Venue.OKX }

/-- Concrete snapshot with a non-empty ask side whose quantities sum to 0. -/
def obZeroSum : OrderbookData :=
  { bids := []
    asks := [{ price := 10, quantity := 0 }]
    timestamp := 0
    symbol := "BTC-USDT"
    venue := Venue.OKX }

/-- Concrete snapshot with an empty ask side. -/
def obEmptyAsks : OrderbookData :=
  { bids := [{ price := 99, quantity := 4 }]
    asks := []
    timestamp := 0
    symbol := "BTC-USDT"
    venue := Venue.OKX }

/-- Concrete well-formed OKX frame (bids descending, asks ascending). -/
def okxFrameW : RawMsg :=
  RawMsg.okx
    { data := some [{ bids := some [(2, 1), (1, 1)]
                      asks := some [(3, 1)]
                      ts := 7
                      instId := "BTC-USDT" }] }

/-- The snapshot `parseOrderbookData` produces from `okxFrameW`. -/
def snapW : OrderbookData :=
  { bids := [{ price := 2, quantity := 1 }, { price := 1, quantity := 1 }]
    asks := [{ price := 3, quantity := 1 }]
    timestamp := 7
    symbol := "BTC-USDT"
    venue := Venue.OKX }

/-- Concrete OKX frame whose book payload lacks the `asks` field. -/
def frameNoAsks : RawMsg :=
  RawMsg.okx
    { data := some [{ bids := some [(1, 1)]
                      asks := none
                      ts := 0
                      instId := "BTC-USDT" }] }

/-- Concrete hook state holding an already-stored snapshot. -/
def stW : ConnState :=
  { orderbookData := some snapW
    isConnected := true
    error := none
    reconnectTimer := none }

lemma foldl_add_quantity (a : ℚ) (ls : List OrderbookLevel) :
    ls.foldl (fun s level => s + level.quantity) a
      = a + ls.foldl (fun s level => s + level.quantity) 0 := by
  induction ls generalizing a with
  | nil => simp
  | cons l ls ih =>
    simp only [List.foldl_cons]
    rw [ih (a + l.quantity), ih (0 + l.quantity)]
    ring

lemma sumQuantities_cons (l : OrderbookLevel) (ls : List OrderbookLevel) :
    sumQuantities (l :: ls) = l.quantity + sumQuantities ls := by
  unfold sumQuantities
  simp only [List.foldl_cons]
  rw [foldl_add_quantity]
  ring

lemma sumQuantities_nonneg (ls : List OrderbookLevel)
    (h : ∀ l ∈ ls, 0 ≤ l.quantity) : 0 ≤ sumQuantities ls := by
  induction ls with
  | nil => simp [sumQuantities]
  | cons l ls ih =>
    rw [sumQuantities_cons]
    have h1 := h l (List.mem_cons_self l ls)
    have h2 := ih (fun x hx => h x (List.mem_cons_of_mem l hx))
    linarith

lemma walkLevels_conserve (ls : List OrderbookLevel) :
    ∀ st : WalkState,
      (walkLevels st ls).remainingQuantity + (walkLevels st ls).totalQuantityFilled
        = st.remainingQuantity + st.totalQuantityFilled := by
  induction ls with
  | nil => intro st; rfl
  | cons l ls ih =>
    intro st
    by_cases h : st.remainingQuantity ≤ 0
    · simp only [walkLevels, if_pos h]
    · simp only [walkLevels, if_neg h]
      rw [ih]
      dsimp
      ring

lemma walkLevels_filled (ls : List OrderbookLevel) :
    ∀ st : WalkState, (∀ l ∈ ls, 0 ≤ l.quantity) → 0 ≤ st.remainingQuantity →
      (walkLevels st ls).totalQuantityFilled
        = st.totalQuantityFilled + min st.remainingQuantity (sumQuantities ls) := by
  induction ls with
  | nil =>
    intro st hq hr
    simp [walkLevels, sumQuantities, min_eq_right hr]
  | cons l ls ih =>
    intro st hq hr
    have hl : 0 ≤ l.quantity := hq l (List.mem_cons_self l ls)
    have hls : ∀ x ∈ ls, 0 ≤ x.quantity := fun x hx => hq x (List.mem_cons_of_mem l hx)
    have hS : 0 ≤ sumQuantities ls := sumQuantities_nonneg ls hls
    rw [sumQuantities_cons]
    by_cases h : st.remainingQuantity ≤ 0
    · have hr0 : st.remainingQuantity = 0 := le_antisymm h hr
      simp only [walkLevels, if_pos h]
      rw [hr0, min_eq_left (by linarith : (0:ℚ) ≤ l.quantity + sumQuantities ls), add_zero]
    · push_neg at h
      rcases le_total st.remainingQuantity l.quantity with hc | hc
      · simp only [walkLevels, if_neg (not_le.mpr h)]
        rw [min_eq_left hc]
        rw [ih _ hls (by dsimp; linarith)]
        dsimp
        rw [sub_self, min_eq_left hS,
          min_eq_left (by linarith : st.remainingQuantity ≤ l.quantity + sumQuantities ls)]
        ring
      · simp only [walkLevels, if_neg (not_le.mpr h)]
        rw [min_eq_right hc]
        rw [ih _ hls (by dsimp; linarith)]
        dsimp
        rcases le_total (st.remainingQuantity - l.quantity) (sumQuantities ls) with hd | hd
        · rw [min_eq_left hd,
            min_eq_left (by linarith : st.remainingQuantity ≤ l.quantity + sumQuantities ls)]
          ring
        · rw [min_eq_right hd,
            min_eq_right (by linarith : l.quantity + sumQuantities ls ≤ st.remainingQuantity)]
          ring

lemma walkLevels_remaining (ls : List OrderbookLevel) (st : WalkState)
    (hq : ∀ l ∈ ls, 0 ≤ l.quantity) (hr : 0 ≤ st.remainingQuantity) :
    (walkLevels st ls).remainingQuantity
      = st.remainingQuantity - min st.remainingQuantity (sumQuantities ls) := by
  have h1 := walkLevels_conserve ls st
  have h2 := walkLevels_filled ls st hq hr
  linarith

lemma parse_shape (v : Venue) (msg : RawMsg) (snap : OrderbookData)
    (h : parseOrderbookData v msg = some snap) :
    ∃ bs aks, rawBook? v msg = some (bs, aks)
      ∧ snap.bids = (bs.map toLevel).take 15
      ∧ snap.asks = (aks.map toLevel).take 15 := by
  cases v <;> cases msg <;>
    try exact Option.noConfusion h
  · rename_i m
    rcases hdata : m.data with _ | (_ | ⟨book, rest⟩)
    · simp [parseOrderbookData, hdata] at h
    · simp [parseOrderbookData, hdata] at h
    · rcases hb : book.bids with _ | bs
      · simp [parseOrderbookData, hdata, hb] at h
      · rcases ha : book.asks with _ | aks
        · simp [parseOrderbookData, hdata, hb, ha] at h
        · simp only [parseOrderbookData, hdata, hb, ha, Option.some.injEq] at h
          subst h
          exact ⟨bs, aks, by simp [rawBook?, hdata, hb, ha], rfl, rfl⟩
  · rename_i m
    rcases hdata : m.data with _ | d
    · simp [parseOrderbookData, hdata] at h
    · rcases hb : d.b with _ | bs
      · simp [parseOrderbookData, hdata, hb] at h
      · rcases ha : d.a with _ | aks
        · simp [parseOrderbookData, hdata, hb, ha] at h
        · simp only [parseOrderbookData, hdata, hb, ha, Option.some.injEq] at h
          subst h
          exact ⟨bs, aks, by simp [rawBook?, hdata, hb, ha], rfl, rfl⟩
  · rename_i m
    rcases hp : m.params with _ | p
    · simp [parseOrderbookData, hp] at h
    · rcases hd : p.data with _ | book
      · simp [parseOrderbookData, hp, hd] at h
      · rcases hb : book.bids with _ | bs
        · simp [parseOrderbookData, hp, hd, hb] at h
        · rcases ha : book.asks with _ | aks
          · simp [parseOrderbookData, hp, hd, hb, ha] at h
          · simp only [parseOrderbookData, hp, hd, hb, ha, Option.some.injEq] at h
            subst h
            exact ⟨bs, aks, by simp [rawBook?, hp, hd, hb, ha], rfl, rfl⟩

lemma chain_desc_transfer (bs : List (ℚ × ℚ))
    (h : (bs.take 15).Chain' (fun a b => b.1 ≤ a.1)) :
    bidsSortedDesc ((bs.map toLevel).take 15) := by
  unfold bidsSortedDesc
  rw [← List.map_take, List.chain'_map]
  exact h

lemma chain_asc_transfer (aks : List (ℚ × ℚ))
    (h : (aks.take 15).Chain' (fun a b => a.1 ≤ b.1)) :
    asksSortedAsc ((aks.map toLevel).take 15) := by
  unfold asksSortedAsc
  rw [← List.map_take, List.chain'_map]
  exact h

lemma bind_none_of_forall {α β : Type} (o : Option α) (f : α → Option β)
    (hf : ∀ x, f x = none) : (o >>= f) = none := by
  cases o with
  | none => rfl
  | some x => exact hf x

lemma parse_none_of_asks_missing (v : Venue) (msg : RawMsg)
    (h : asksFieldMissing msg = true) :
    parseOrderbookData v msg = none := by
  cases v <;> cases msg <;> try rfl
  all_goals try
    (rename_i m
     rcases hdata : m.data with _ | (_ | ⟨book, rest⟩)
     · simp [parseOrderbookData, hdata]
     · simp [parseOrderbookData, hdata]
     · have ha : book.asks = none := by
         simpa [asksFieldMissing, hdata, Option.isNone_iff_eq_none] using h
       rcases hb : book.bids with _ | bs <;>
         simp [parseOrderbookData, hdata, hb, ha])
  all_goals try
    (rename_i m
     rcases hdata : m.data with _ | d
     · simp [parseOrderbookData, hdata]
     · have ha : d.a = none := by
         simpa [asksFieldMissing, hdata, Option.isNone_iff_eq_none] using h
       rcases hb : d.b with _ | bs <;>
         simp [parseOrderbookData, hdata, hb, ha])
  all_goals
    (rename_i m
     rcases hp : m.params with _ | pr
     · simp [parseOrderbookData, hp]
     · rcases hd : pr.data with _ | book
       · simp [parseOrderbookData, hp, hd]
       · have ha : book.asks = none := by
           simpa [asksFieldMissing, hp, hd, Option.isNone_iff_eq_none] using h
         rcases hb : book.bids with _ | bs <;>
           simp [parseOrderbookData, hp, hd, hb, ha])

/-- C2: `calculateMarketImpact` never reads the captured `orderType` and
`price` (limit price) state, so the metrics computed for a Limit order
equal those for a Market order with the same side and quantity against the
same snapshot — the result is independent of the limit price. -/
theorem limit_metrics_eq_market_metrics (ob : Option OrderbookData)
    (side : OrderSide) (q lp lp' : Option ℚ) :
    calculateMarketImpact ob OrderType.limit side lp q
      = calculateMarketImpact ob OrderType.market side lp' q := rfl

/-- C9: the `onclose` handler always schedules `connect()` (a reconnect)
after exactly `reconnectDelayMs = 5000` milliseconds, for every state —
in particular right after a transport error — and the delay is the same
constant for every state, so there is no backoff growth and no
maximum-retry ceiling (the state carries no attempt counter at all). -/
theorem reconnect_fixed_delay (v : Venue) (st : ConnState) :
    (onSocketClose st).reconnectTimer = some reconnectDelayMs
    ∧ (onSocketClose (onSocketError v st)).reconnectTimer = some reconnectDelayMs
    ∧ reconnectDelayMs = 5000 :=
  ⟨rfl, rfl, rfl⟩

/-- C6: every snapshot produced by `parseOrderbookData` has at most 15
levels per side, whatever the raw message contained, because each side is
truncated with `.slice(0, 15)`. -/
theorem depth_bound (v : Venue) (msg : RawMsg) (snap : OrderbookData)
    (h : parseOrderbookData v msg = some snap) :
    snap.bids.length ≤ 15 ∧ snap.asks.length ≤ 15 := by
  obtain ⟨bs, aks, hraw, hbids, haks⟩ := parse_shape v msg snap h
  constructor
  · rw [hbids, List.length_take]
    exact min_le_left _ _
  · rw [haks, List.length_take]
    exact min_le_left _ _

/-- Witness for C6 at a concrete OKX frame. -/
theorem depth_bound_witness :
    snapW.bids.length ≤ 15 ∧ snapW.asks.length ≤ 15 :=
  depth_bound Venue.OKX okxFrameW snapW (by rfl)

/-- C10: with non-negative quantities on the opposing side and a positive
order quantity, the walk fills exactly
`min(order quantity, sum of opposing quantities)`: it never over-fills and
never leaves available depth untaken. -/
theorem filled_eq_min (ob : OrderbookData) (side : OrderSide) (q : ℚ)
    (hq : ∀ l ∈ sideLevels side ob, 0 ≤ l.quantity) (h0 : 0 < q) :
    (walkLevels (WalkState.mk q 0 0 0) (sideLevels side ob)).totalQuantityFilled
      = min q (sumQuantities (sideLevels side ob)) := by
  have h := walkLevels_filled (sideLevels side ob) (WalkState.mk q 0 0 0) hq (le_of_lt h0)
  simpa using h

/-- Witness for C10: walking `obA` with quantity 5 fills `min 5 3`. -/
theorem filled_eq_min_witness :
    (walkLevels (WalkState.mk 5 0 0 0) (sideLevels OrderSide.buy obA)).totalQuantityFilled
      = min 5 (sumQuantities (sideLevels OrderSide.buy obA)) :=
  filled_eq_min obA OrderSide.buy 5 (by decide) (by norm_num)

/-- C3: with non-negative opposing quantities and
`0 < quantity <= sum(opposing quantities)`, the walk ends with remaining
exactly 0 and the computed `estimatedFill` is exactly 100. -/
theorem simulator_fill_conservation (ob : OrderbookData) (t : OrderType)
    (side : OrderSide) (p : Option ℚ) (q : ℚ)
    (hq : ∀ l ∈ sideLevels side ob, 0 ≤ l.quantity)
    (h0 : 0 < q) (hle : q ≤ sumQuantities (sideLevels side ob)) :
    (walkLevels (WalkState.mk q 0 0 0) (sideLevels side ob)).remainingQuantity = 0
    ∧ (calculateMarketImpact (some ob) t side p (some q)).estimatedFill = 100 := by
  have hmin : min q (sumQuantities (sideLevels side ob)) = q := min_eq_left hle
  have hfill : (walkLevels (WalkState.mk q 0 0 0) (sideLevels side ob)).totalQuantityFilled
      = q := by
    have h := walkLevels_filled (sideLevels side ob) (WalkState.mk q 0 0 0) hq (le_of_lt h0)
    simpa [hmin] using h
  constructor
  · have h := walkLevels_remaining (sideLevels side ob) (WalkState.mk q 0 0 0) hq (le_of_lt h0)
    simpa [hmin] using h
  · have hunfold : (calculateMarketImpact (some ob) t side p (some q)).estimatedFill
        = (walkLevels (WalkState.mk q 0 0 0) (sideLevels side ob)).totalQuantityFilled
            / q * 100 := rfl
    rw [hunfold, hfill, div_self (ne_of_gt h0), one_mul]

/-- Witness for C3: a Buy order for 2 against `obA` (total ask depth 3). -/
theorem simulator_fill_conservation_witness :
    (walkLevels (WalkState.mk 2 0 0 0) (sideLevels OrderSide.buy obA)).remainingQuantity = 0
    ∧ (calculateMarketImpact (some obA) OrderType.market OrderSide.buy none
        (some 2)).estimatedFill = 100 :=
  simulator_fill_conservation obA OrderType.market OrderSide.buy none 2
    (by decide) (by norm_num) (by norm_num [sumQuantities, sideLevels, obA])

/-- C7: the spec's partial-fill example — asks `[{100,1},{101,2}]`, Buy
quantity 2 — fills 2 at cost 201, average price 100.5, best price 100,
slippage 0.5, market impact 200/3, estimated fill 100. -/
theorem simulator_partial_fill_example :
    (walkLevels (WalkState.mk 2 0 0 0) (sideLevels OrderSide.buy obA)).totalQuantityFilled = 2
    ∧ (walkLevels (WalkState.mk 2 0 0 0) (sideLevels OrderSide.buy obA)).totalCost = 201
    ∧ (calculateMarketImpact (some obA) OrderType.market OrderSide.buy none
        (some 2)).averagePrice = 201 / 2
    ∧ firstPrice (sideLevels OrderSide.buy obA) = 100
    ∧ (calculateMarketImpact (some obA) OrderType.market OrderSide.buy none
        (some 2)).slippage = 1 / 2
    ∧ (calculateMarketImpact (some obA) OrderType.market OrderSide.buy none
        (some 2)).marketImpact = 200 / 3
    ∧ (calculateMarketImpact (some obA) OrderType.market OrderSide.buy none
        (some 2)).estimatedFill = 100 := by
  have hw : walkLevels (WalkState.mk 2 0 0 0)
      [{ price := 100, quantity := 1 }, { price := 101, quantity := 2 }]
      = WalkState.mk 0 201 2 101 := by
    norm_num [walkLevels, min_def]
  have hm : calculateMarketImpact (some obA) OrderType.market OrderSide.buy none (some 2)
      = { estimatedFill := 100, marketImpact := 200 / 3, slippage := 1 / 2
          averagePrice := 201 / 2, worstPrice := 101 } := by
    simp only [calculateMarketImpact, sideLevels, obA, hw]
    norm_num [sumQuantities, firstPrice, abs_of_nonneg]
  refine ⟨by simp [sideLevels, obA, hw], by simp [sideLevels, obA, hw], by rw [hm],
    by norm_num [firstPrice, sideLevels, obA], by rw [hm], by rw [hm], by rw [hm]⟩

/-- C8: a raw message whose asks field is missing parses to `null`, and
the `onmessage` handler then leaves the whole hook state — stored
snapshot included — unchanged, surfacing no error. -/
theorem missing_asks_ignored (v : Venue) (msg : RawMsg) (st : ConnState)
    (h : asksFieldMissing msg = true) :
    parseOrderbookData v msg = none ∧ onMessage v msg st = st := by
  have hp := parse_none_of_asks_missing v msg h
  exact ⟨hp, by simp [onMessage, hp]⟩

/-- Witness for C8: an OKX frame with bids but no asks, against a state
already holding a snapshot. -/
theorem missing_asks_ignored_witness :
    parseOrderbookData Venue.OKX frameNoAsks = none
    ∧ onMessage Venue.OKX frameNoAsks stW = stW :=
  missing_asks_ignored Venue.OKX frameNoAsks stW (by rfl)

/-- Concrete OKX frame whose bids arrive in ascending (wrong) order. -/
def okxFrameUnsorted : RawMsg :=
  RawMsg.okx
    { data := some [{ bids := some [(1, 1), (2, 1)]
                      asks := some [(3, 1)]
                      ts := 0
                      instId := "BTC-USDT" }] }

/-- C1 counterexample: `parseOrderbookData` performs no sorting, so an OKX
frame whose raw bids are in ascending order parses to a snapshot whose
bids violate the descending sort invariant. -/
theorem normalizer_unsorted_counterexample :
    parseOrderbookData Venue.OKX okxFrameUnsorted
      = some { bids := [{ price := 1, quantity := 1 }, { price := 2, quantity := 1 }]
               asks := [{ price := 3, quantity := 1 }]
               timestamp := 0
               symbol := "BTC-USDT"
               venue := Venue.OKX }
    ∧ ¬ bidsSortedDesc [{ price := 1, quantity := 1 }, { price := 2, quantity := 1 }] := by
  constructor
  · rfl
  · intro hs
    simp only [bidsSortedDesc, List.chain'_cons, List.chain'_singleton, and_true] at hs
    norm_num at hs

/-- C1 (amended): the normalizer does not sort; it emits each side in the
raw message's own order, truncated to the first 15 levels — so a side
satisfies the sort invariant exactly when the first 15 raw levels already
did (which is not enforced). -/
theorem normalizer_preserves_raw_order (v : Venue) (msg : RawMsg) (snap : OrderbookData)
    (h : parseOrderbookData v msg = some snap) :
    ∃ bs aks, rawBook? v msg = some (bs, aks)
      ∧ snap.bids = (bs.map toLevel).take 15
      ∧ snap.asks = (aks.map toLevel).take 15
      ∧ ((bs.take 15).Chain' (fun a b => b.1 ≤ a.1) → bidsSortedDesc snap.bids)
      ∧ ((aks.take 15).Chain' (fun a b => a.1 ≤ b.1) → asksSortedAsc snap.asks) := by
  obtain ⟨bs, aks, hraw, hb, ha⟩ := parse_shape v msg snap h
  refine ⟨bs, aks, hraw, hb, ha, ?_, ?_⟩
  · intro hc
    rw [hb]
    exact chain_desc_transfer bs hc
  · intro hc
    rw [ha]
    exact chain_asc_transfer aks hc

/-- Witness for the amended C1 at a concrete sorted OKX frame. -/
theorem normalizer_preserves_raw_order_witness :
    ∃ bs aks, rawBook? Venue.OKX okxFrameW = some (bs, aks)
      ∧ snapW.bids = (bs.map toLevel).take 15
      ∧ snapW.asks = (aks.map toLevel).take 15
      ∧ ((bs.take 15).Chain' (fun a b => b.1 ≤ a.1) → bidsSortedDesc snapW.bids)
      ∧ ((aks.take 15).Chain' (fun a b => a.1 ≤ b.1) → asksSortedAsc snapW.asks) :=
  normalizer_preserves_raw_order Venue.OKX okxFrameW snapW (by rfl)

/-- C4: a Buy order with positive quantity against a snapshot with empty
asks performs no division by zero (every division's denominator is
checked non-zero) and yields all-zero metrics; the best price local also
resolves to 0. -/
theorem empty_asks_safety (ob : OrderbookData) (t : OrderType) (p : Option ℚ) (q : ℚ)
    (hempty : ob.asks = []) (h0 : 0 < q) :
    calculateMarketImpactChecked (some ob) t OrderSide.buy p (some q)
      = some { estimatedFill := 0, marketImpact := 0, slippage := 0
               averagePrice := 0, worstPrice := 0 }
    ∧ firstPrice (sideLevels OrderSide.buy ob) = 0 := by
  constructor
  · simp [calculateMarketImpactChecked, sideLevels, hempty, walkLevels, qdiv?, h0.ne',
      firstPrice, sumQuantities]
  · simp [sideLevels, hempty, firstPrice]

/-- Witness for C4 at a concrete snapshot with empty asks. -/
theorem empty_asks_safety_witness :
    calculateMarketImpactChecked (some obEmptyAsks) OrderType.limit OrderSide.buy
        (some 99) (some 1)
      = some { estimatedFill := 0, marketImpact := 0, slippage := 0
               averagePrice := 0, worstPrice := 0 }
    ∧ firstPrice (sideLevels OrderSide.buy obEmptyAsks) = 0 :=
  empty_asks_safety obEmptyAsks OrderType.limit (some 99) 1 (by rfl) (by norm_num)

/-- C5 counterexample: on a snapshot whose ask side is non-empty but sums
to quantity 0, a Buy order makes the market-impact line divide by zero
(`NaN` in the source's float semantics) — the checked evaluation returns
`none`, not a metrics record with `marketImpact = 0` as the claim states. -/
theorem marketImpact_zero_sum_counterexample :
    sumQuantities obZeroSum.asks = 0
    ∧ obZeroSum.asks ≠ []
    ∧ calculateMarketImpactChecked (some obZeroSum) OrderType.market OrderSide.buy
        none (some 1) = none := by
  refine ⟨by norm_num [sumQuantities, obZeroSum], by simp [obZeroSum], ?_⟩
  have hw : walkLevels (WalkState.mk 1 0 0 0) [{ price := 10, quantity := 0 }]
      = WalkState.mk 1 0 0 10 := by
    norm_num [walkLevels, min_def]
  simp [calculateMarketImpactChecked, sideLevels, obZeroSum, hw, qdiv?,
    firstPrice, sumQuantities, abs_of_nonpos]

/-- C5 (amended): the source guards the market-impact division by
`levels.length > 0`, not by `sum > 0`: whenever the opposing side's
quantities sum to a positive value the claimed formula
`100 * filled / sum` does hold, and an empty opposing side yields 0; but a
non-empty opposing side whose quantities sum to 0 hits an unguarded
division by zero (`NaN`), not 0. -/
theorem marketImpact_formula (ob : OrderbookData) (t : OrderType) (side : OrderSide)
    (p : Option ℚ) (q : ℚ) (h0 : 0 < q) :
    (0 < sumQuantities (sideLevels side ob) →
      (calculateMarketImpact (some ob) t side p (some q)).marketImpact
        = 100 * (walkLevels (WalkState.mk q 0 0 0) (sideLevels side ob)).totalQuantityFilled
            / sumQuantities (sideLevels side ob))
    ∧ (sideLevels side ob = [] →
        (calculateMarketImpact (some ob) t side p (some q)).marketImpact = 0)
    ∧ (sideLevels side ob ≠ [] → sumQuantities (sideLevels side ob) = 0 →
        calculateMarketImpactChecked (some ob) t side p (some q) = none) := by
  have hunfold : (calculateMarketImpact (some ob) t side p (some q)).marketImpact
      = if 0 < (sideLevels side ob).length
        then (walkLevels (WalkState.mk q 0 0 0) (sideLevels side ob)).totalQuantityFilled
              / sumQuantities (sideLevels side ob) * 100
        else 0 := rfl
  refine ⟨?_, ?_, ?_⟩
  · intro hs
    have hne : sideLevels side ob ≠ [] := by
      intro he
      rw [he] at hs
      simp [sumQuantities] at hs
    have hlen : 0 < (sideLevels side ob).length := List.length_pos.mpr hne
    rw [hunfold, if_pos hlen]
    ring
  · intro he
    rw [hunfold, he]
    simp
  · intro hne hsum
    have hlen : 0 < (sideLevels side ob).length := List.length_pos.mpr hne
    simp only [calculateMarketImpactChecked]
    apply bind_none_of_forall
    intro f0
    split
    · apply bind_none_of_forall
      intro averagePrice
      split
      · apply bind_none_of_forall
        intro slippage
        simp [hlen, hsum, qdiv?]
      · apply bind_none_of_forall
        intro slippage
        simp [hlen, hsum, qdiv?]
    · apply bind_none_of_forall
      intro averagePrice
      split
      · apply bind_none_of_forall
        intro slippage
        simp [hlen, hsum, qdiv?]
      · apply bind_none_of_forall
        intro slippage
        simp [hlen, hsum, qdiv?]

/-- Witness for the amended C5: `obA` has positive ask depth, so the spec
formula holds there. -/
theorem marketImpact_formula_witness :
    (calculateMarketImpact (some obA) OrderType.market OrderSide.buy none
        (some 2)).marketImpact
      = 100 * (walkLevels (WalkState.mk 2 0 0 0) (sideLevels OrderSide.buy obA)).totalQuantityFilled
          / sumQuantities (sideLevels OrderSide.buy obA) :=
  (marketImpact_formula obA OrderType.market OrderSide.buy none 2 (by norm_num)).1
    (by norm_num [sumQuantities, sideLevels, obA])
